import Mathlib

/-!
Verification of the qodo-plus extension (src/extension.ts) against its
natural-language specification.  The orchestration core is shallowly
embedded: placeholder substitution (the chained global `String.replace`
calls), credential resolution with the environment-variable fallback
chain, the POSIX path derivations, the test-directory join, the
environment bootstrap, and the subprocess supervisor's event handlers.
-/

namespace QodoPlus

/-! ## Generic string machinery (JS `String.prototype.replace` with a
global literal pattern, modelled on `List Char`) -/

/-- Boolean test: `p` is a prefix of `s`. -/
def isPre {α : Type} [DecidableEq α] : List α → List α → Bool
  | [], _ => true
  | _ :: _, [] => false
  | a :: as, b :: bs => a = b && isPre as bs

/-- Boolean test: `pat` occurs as a contiguous subsequence of `s`. -/
def containsSeq {α : Type} [DecidableEq α] (pat : List α) : List α → Bool
  | [] => isPre pat []
  | c :: rest => isPre pat (c :: rest) || containsSeq pat rest

/-- The backquote character, written by code point. -/
def backquoteChar : Char := Char.ofNat 96

/-- The apostrophe character, written by code point. -/
def singleQuoteChar : Char := Char.ofNat 39

/-- ECMAScript `GetSubstitution` for a match of a literal pattern with no
capture groups, as performed by `String.prototype.replace` on its string
replacement argument: `$$` emits a dollar sign, `$&` emits the matched
text, a dollar followed by a backquote emits the portion of the subject
before the match, a dollar followed by an apostrophe emits the portion
after the match, and every other use of a dollar — including `$1`..`$9`,
which exceed the zero capture groups of the token regexes — is passed
through literally. -/
def getSubstitution (matched before after : List Char) : List Char → List Char
  | [] => []
  | [c] => [c]
  | c1 :: c2 :: rest =>
    if c1 = '$' then
      if c2 = '$' then '$' :: getSubstitution matched before after rest
      else if c2 = '&' then matched ++ getSubstitution matched before after rest
      else if c2 = backquoteChar then before ++ getSubstitution matched before after rest
      else if c2 = singleQuoteChar then after ++ getSubstitution matched before after rest
      else c1 :: getSubstitution matched before after (c2 :: rest)
    else c1 :: getSubstitution matched before after (c2 :: rest)

/-- One step of global literal replacement, fuelled.  Scans left to
right; on a match, emits the replacement expanded by ECMAScript
`GetSubstitution` (so dollar patterns in the replacement are
interpreted, with the accumulated prefix `pre` of the original subject
as the before-match context) and resumes after the matched text, so the
inserted text is never rescanned — the semantics of JavaScript
`s.replace(/lit/g, rep)` for a literal pattern.  With `fuel ≥ s.length`
the fuel never runs out; an exhausted fuel returns the remaining input
unchanged. -/
def repAux (pat rep : List Char) : Nat → List Char → List Char → List Char
  | _, _, [] => []
  | 0, _, s => s
  | fuel + 1, pre, c :: rest =>
    if isPre pat (c :: rest) = true then
      getSubstitution pat pre (List.drop pat.length (c :: rest)) rep ++
        repAux pat rep fuel (pre ++ pat) (List.drop pat.length (c :: rest))
    else
      c :: repAux pat rep fuel (pre ++ [c]) rest

/-- Global replacement of the literal `pat` by the replacement string
`rep` (with dollar-pattern expansion) in `s`. -/
def replaceAll (pat rep s : List Char) : List Char :=
  repAux pat rep s.length [] s

/-- Interleave: the gap segments of a string joined by a separator, so
`sepBy sep [g0, g1, g2]` is `g0 ++ sep ++ g1 ++ sep ++ g2`.  A string
with exactly the occurrences `sep` at the gap boundaries is
`sepBy sep gaps`. -/
def sepBy (sep : List Char) : List (List Char) → List Char
  | [] => []
  | [g] => g
  | g :: g2 :: gs => g ++ sep ++ sepBy sep (g2 :: gs)

/-- No stray match: scanning `sepBy pat gaps`, no occurrence of `pat`
starts inside a gap (occurrences exist only at the designated
boundaries).  The final gap simply must not contain the pattern. -/
def okGaps (pat : List Char) : List (List Char) → Bool
  | [] => true
  | [g] => !(containsSeq pat g)
  | g :: g2 :: gs =>
    ((List.range g.length).all fun i =>
      !(isPre pat (List.drop i (g ++ pat ++ sepBy pat (g2 :: gs))))) &&
    okGaps pat (g2 :: gs)

/-! ## POSIX path helpers (models of Node's `path` module as used by the
extension on a forward-slash host) -/

/-- Split a character list on `/`, keeping empty segments. -/
def splitOnSlash : List Char → List (List Char)
  | [] => [[]]
  | c :: rest =>
    match splitOnSlash rest with
    | [] => [[]]
    | seg :: segs => if c = '/' then [] :: seg :: segs else (c :: seg) :: segs

/-- The non-empty `/`-separated segments of a path string. -/
def segsOf (s : String) : List String :=
  ((splitOnSlash s.data).filter (fun l => l ≠ [])).map (fun l => String.mk l)

/-- Join strings with `/` between them. -/
def joinSlash : List String → String
  | [] => ""
  | [s] => s
  | s :: rest => s ++ "/" ++ joinSlash rest

/-- Model of POSIX `path.dirname`: the text before the last `/`; `"."`
when there is no `/`; `"/"` when the last `/` is the leading one. -/
def dirnameS (s : String) : String :=
  match (s.data.reverse).dropWhile (fun c => c ≠ '/') with
  | [] => "."
  | _ :: tail =>
    match tail.reverse with
    | [] => "/"
    | pre => String.mk pre

/-- Model of POSIX `path.basename`: the text after the last `/`. -/
def basenameS (s : String) : String :=
  String.mk ((s.data.reverse.takeWhile (fun c => c ≠ '/')).reverse)

/-- Lexical relative-path computation between two absolute POSIX paths
(model of `path.relative`): strip the common segment prefix, then one
`..` per remaining segment of the start path followed by the remaining
segments of the target. -/
def relSegs : List String → List String → List String
  | [], t => t
  | f :: fr, [] => List.replicate (f :: fr).length ".."
  | f :: fr, t :: tr =>
    if f = t then relSegs fr tr
    else List.replicate (f :: fr).length ".." ++ (t :: tr)

/-- Model of `path.relative` for absolute POSIX inputs. -/
def relativeP (fromP toP : String) : String :=
  joinSlash (relSegs (segsOf fromP) (segsOf toP))

/-- Model of `toPosixPath` (extension.ts line 77): split on the host
separator and rejoin with `/`, i.e. replace every separator char. -/
def toPosixPath (sep : Char) (s : String) : String :=
  String.mk (s.data.map (fun c => if c = sep then '/' else c))

/-- Normalisation stack for `path.join`: process segments left to right,
`..` pops the last accumulated segment (a no-op at the root, which is
the behaviour of joining below an absolute root), `.` is dropped. -/
def normStack : List String → List String → List String
  | st, [] => st
  | st, s :: rest =>
    if s = ".." then normStack (List.dropLast st) rest
    else if s = "." then normStack st rest
    else normStack (st ++ [s]) rest

/-! ## Placeholder resolution (extension.ts lines 74-135) -/

/-- The `\x7brelativeFilePath\x7d` token. -/
def tokRelStr : String := "\x7brelativeFilePath\x7d"

/-- The `\x7bfileName\x7d` token. -/
def tokNameStr : String := "\x7bfileName\x7d"

/-- The `\x7bsourceDir\x7d` token. -/
def tokDirStr : String := "\x7bsourceDir\x7d"

/-- The `\x7btestFilePath\x7d` token. -/
def tokTestStr : String := "\x7btestFilePath\x7d"

def tokRel : List Char := tokRelStr.data
def tokName : List Char := tokNameStr.data
def tokDir : List Char := tokDirStr.data
def tokTest : List Char := tokTestStr.data

/-- The per-invocation path facts derived at extension.ts lines 80-82:
`sourceRelPath`, `fileName`, `sourceDir`. -/
structure PathCtx where
  sourceRelPath : String
  fileName : String
  sourceDir : String
deriving DecidableEq, Repr

/-- Derivation of the `PathCtx` on a POSIX host (extension.ts lines
75-82): relative path and containing directory are forward-slash
normalised. -/
def mkPathCtx (workspaceRoot sourceAbsPath : String) : PathCtx :=
  let rel := toPosixPath '/' (relativeP workspaceRoot sourceAbsPath)
  { sourceRelPath := rel
    fileName := basenameS sourceAbsPath
    sourceDir := toPosixPath '/' (dirnameS rel) }

/-- The path-template resolution chain (extension.ts lines 123-131):
replace all occurrences of `\x7brelativeFilePath\x7d`, then of
`\x7bfileName\x7d`, then of `\x7bsourceDir\x7d`. -/
def resolvePath (tpl : String) (ctx : PathCtx) : String :=
  String.mk (replaceAll tokDir ctx.sourceDir.data
    (replaceAll tokName ctx.fileName.data
      (replaceAll tokRel ctx.sourceRelPath.data tpl.data)))

/-- The command-template resolution chain (extension.ts lines 133-135):
replace all occurrences of `\x7btestFilePath\x7d`, then of
`\x7bsourceDir\x7d`. -/
def resolveCmd (tpl testFilePath sourceDir : String) : String :=
  String.mk (replaceAll tokDir sourceDir.data
    (replaceAll tokTest testFilePath.data tpl.data))

/-- Default source-path template (extension.ts line 113). -/
def defaultSourcePathTpl : String := "\x7brelativeFilePath\x7d"

/-- Default test-path template (extension.ts line 114). -/
def defaultTestPathTpl : String := "tests/test_\x7bfileName\x7d"

/-- Default test-command template (extension.ts line 116). -/
def defaultTestCommandTpl : String :=
  "pytest \x7btestFilePath\x7d --cov=\x7bsourceDir\x7d --cov-branch --cov-report=xml --cov-report=html"

/-- Whether a string contains any recognized placeholder token. -/
def hasAnyTok (s : String) : Bool :=
  containsSeq tokRel s.data || containsSeq tokName s.data ||
    containsSeq tokDir s.data || containsSeq tokTest s.data

/-! ## Credential resolution (extension.ts lines 85-109) -/

/-- The fixed fallback order of credential environment variables
(extension.ts lines 85-93). -/
def possibleEnvKeys : List String :=
  ["OPENAI_API_KEY",
   "FIREWORKS_AI_API_KEY",
   "DEEPSEEK_API_KEY",
   "ANTHROPIC_API_KEY",
   "GEMINI_API_KEY",
   "GROQ_API_KEY",
   "QODO_API_KEY"]

/-- JavaScript truthiness of an optional string: `undefined` and the
empty string are falsy. -/
def truthyOpt : Option String → Bool
  | none => false
  | some s => decide (s ≠ "")

/-- The `for (const envKey of possibleEnvKeys)` loop (lines 98-103):
first environment value that is truthy wins. -/
def firstTruthy (env : String → Option String) : List String → Option String
  | [] => none
  | k :: rest => if truthyOpt (env k) then env k else firstTruthy env rest

/-- Credential resolution (lines 95-109): the explicit setting if truthy,
else the first truthy environment variable in `possibleEnvKeys` order;
`none` means the run aborts with the configuration error message. -/
def resolveApiKey (setting : Option String) (env : String → Option String) : Option String :=
  if truthyOpt setting then setting else firstTruthy env possibleEnvKeys

/-! ## Test-directory creation (extension.ts line 142)

`path.join(workspaceRoot, path.dirname(finalTestPath))` is modelled in
segment form: the joined path's normalised segment list. -/

/-- Segment list of the directory that `fs.mkdirSync` would create:
the workspace root's segments joined with the resolved test path's
directory segments, with `.` dropped and `..` popping (the lexical
normalisation `path.join` performs; `..` at the absolute root is
absorbed). -/
def testDirSegs (workspaceRoot finalTestPath : String) : List String :=
  normStack [] (segsOf workspaceRoot ++ segsOf (dirnameS finalTestPath))

/-! ## Environment bootstrap (extension.ts lines 10-57) -/

/-- Model of `path.join` on two components: concatenation with the
host separator. -/
def pathJoin2 (isWindows : Bool) (a b : String) : String :=
  a ++ (if isWindows then "\\" else "/") ++ b

/-- `python_service/qodo-cover` under the extension path (line 12). -/
def qodoCoverDir (isWindows : Bool) (extensionPath : String) : String :=
  pathJoin2 isWindows (pathJoin2 isWindows extensionPath "python_service") "qodo-cover"

/-- The venv root (line 13). -/
def venvRootDir (isWindows : Bool) (extensionPath : String) : String :=
  pathJoin2 isWindows (qodoCoverDir isWindows extensionPath) "venv"

/-- The platform-specific executable path (lines 14-18):
`<venv>/Scripts/cover-agent.exe` on Windows, `<venv>/bin/cover-agent`
otherwise. -/
def coverAgentPath (isWindows : Bool) (extensionPath : String) : String :=
  pathJoin2 isWindows
    (pathJoin2 isWindows (venvRootDir isWindows extensionPath)
      (if isWindows then "Scripts" else "bin"))
    (if isWindows then "cover-agent.exe" else "cover-agent")

/-- The virtual-environment creation command (lines 34-35). -/
def venvCmdStr (isWindows : Bool) : String :=
  (if isWindows then "py" else "python3") ++ " -3.11 -m venv venv"

/-- The dependency-install command (lines 41-42). -/
def pipCmdStr (isWindows : Bool) : String :=
  (if isWindows then "venv\\Scripts\\pip" else "venv/bin/pip") ++ " install -e ."

/-- Result of one `setupPythonEnvironment` invocation: the boolean the
function returns and the shell commands it issued, in order. -/
structure SetupResult where
  ok : Bool
  cmds : List String
deriving DecidableEq, Repr

/-- Model of `setupPythonEnvironment` (lines 10-57).  `fileExists` is the
`fs.existsSync` oracle and `execOk` tells whether an issued command
succeeds.  Fast path: when the executable exists, return `true` with no
command issued; otherwise create the venv and pip-install, stopping at
the first failing command. -/
def setupPythonEnvironment (isWindows : Bool) (extensionPath : String)
    (fileExists : String → Bool) (execOk : String → Bool) : SetupResult :=
  if fileExists (coverAgentPath isWindows extensionPath) then
    { ok := true, cmds := [] }
  else
    let vCmd := venvCmdStr isWindows
    if execOk vCmd then
      let pCmd := pipCmdStr isWindows
      { ok := execOk pCmd, cmds := [vCmd, pCmd] }
    else
      { ok := false, cmds := [vCmd] }

/-! ## Subprocess supervisor (extension.ts lines 180-229)

The `withProgress` callback wires three handlers around one child
process: `token.onCancellationRequested` (kill, warn "cancelled",
resolve), `childProcess.on('close')` (return early when the token is
cancelled, else report success for exit code 0 and failure otherwise,
resolve), and `childProcess.on('error')` (report a launch error,
resolve).  A run is the fold of its event trace over these handlers. -/

/-- An event delivered to the supervisor's handlers: the cancellation
callback, the `close` event with its exit code (`none` models `null`),
or the `error` event. -/
inductive SupEvent where
  | cancel : SupEvent
  | close : Option Int → SupEvent
  | err : SupEvent
deriving DecidableEq, Repr

/-- A terminal outcome notification shown to the user. -/
inductive SupReport where
  | cancelled : SupReport
  | success : SupReport
  | exitFailure : Option Int → SupReport
  | launchError : SupReport
deriving DecidableEq, Repr

/-- Supervisor run state: the token's cancellation flag, whether the
child was killed, whether the promise was resolved, and the terminal
notifications emitted so far. -/
structure SupState where
  cancelRequested : Bool
  killed : Bool
  resolved : Bool
  reports : List SupReport
deriving DecidableEq, Repr

def initSup : SupState := { cancelRequested := false, killed := false, resolved := false, reports := [] }

/-- The three handlers (lines 198-227).  The cancellation token fires its
callback at most once, so a second `cancel` is a no-op; the `close`
handler returns early when the token is cancelled; the `error` handler
performs no such check. -/
def stepSup (s : SupState) : SupEvent → SupState
  | SupEvent.cancel =>
    if s.cancelRequested then s
    else
      { cancelRequested := true
        killed := true
        resolved := true
        reports := s.reports ++ [SupReport.cancelled] }
  | SupEvent.close code =>
    if s.cancelRequested then s
    else
      { s with
        resolved := true
        reports := s.reports ++
          [if code = some 0 then SupReport.success else SupReport.exitFailure code] }
  | SupEvent.err =>
    { s with resolved := true, reports := s.reports ++ [SupReport.launchError] }

/-- A supervisor run over an event trace. -/
def runSup (events : List SupEvent) : SupState :=
  events.foldl stepSup initSup

/-- Whether an event is a cancellation or a process-exit (`close`)
event, i.e. not the spawn-failure `error` event. -/
def isCloseOrCancel : SupEvent → Bool
  | SupEvent.err => false
  | _ => true

/-! ## Overlapping bootstrap triggers (extension.ts lines 10-57, 137)

Two invocations of the command interleave on the single-threaded event
loop; each suspends at its `await execAsync` boundaries.  Each task runs
the POSIX bootstrap: program counter 0 checks `fs.existsSync`, 1 issues
the venv-creation command, 2 issues the pip install (whose completion
makes the executable exist), 3 is done.  Nothing in the source guards
the region between the existence check and install completion. -/

structure BootState where
  exeExists : Bool
  pc1 : Nat
  pc2 : Nat
  cmds1 : List String
  cmds2 : List String
deriving DecidableEq, Repr

/-- One scheduler step of the first invocation. -/
def bootStep1 (s : BootState) : BootState :=
  match s.pc1 with
  | 0 => if s.exeExists then { s with pc1 := 3 } else { s with pc1 := 1 }
  | 1 => { s with cmds1 := s.cmds1 ++ [venvCmdStr false], pc1 := 2 }
  | 2 => { s with cmds1 := s.cmds1 ++ [pipCmdStr false], exeExists := true, pc1 := 3 }
  | _ => s

/-- One scheduler step of the second invocation. -/
def bootStep2 (s : BootState) : BootState :=
  match s.pc2 with
  | 0 => if s.exeExists then { s with pc2 := 3 } else { s with pc2 := 1 }
  | 1 => { s with cmds2 := s.cmds2 ++ [venvCmdStr false], pc2 := 2 }
  | 2 => { s with cmds2 := s.cmds2 ++ [pipCmdStr false], exeExists := true, pc2 := 3 }
  | _ => s

/-- Run a schedule: `false` steps the first invocation, `true` the
second. -/
def bootRun (sched : List Bool) : BootState :=
  sched.foldl (fun s b => if b then bootStep2 s else bootStep1 s)
    { exeExists := false, pc1 := 0, pc2 := 0, cmds1 := [], cmds2 := [] }

/-! ## Helper lemmas -/

/-- A list is a prefix of itself followed by anything. -/
lemma isPre_append_self {α : Type} [DecidableEq α] (a t : List α) :
    isPre a (a ++ t) = true := by
  induction a with
  | nil => rfl
  | cons x xs ih => simp [isPre, ih]

/-- A replacement string without a dollar character is inserted as-is,
whatever the match context. -/
lemma getSubstitution_no_dollar (m b a : List Char) :
    ∀ rep : List Char, '$' ∉ rep → getSubstitution m b a rep = rep := by
  intro rep
  induction rep with
  | nil => intro _; rfl
  | cons c t ih =>
    intro h
    have hc : c ≠ '$' := by
      intro hcon
      exact h (by simp [hcon])
    have ht : '$' ∉ t := by
      intro hcon
      exact h (by simp [hcon])
    cases t with
    | nil => rfl
    | cons c2 r => simp [getSubstitution, hc, ih ht]

/-- When the pattern does not occur in the input, the fuelled scanner
leaves the input unchanged, whatever the fuel and prefix context. -/
lemma repAux_no_occ (pat rep : List Char) (fuel : Nat) :
    ∀ (pre s : List Char), containsSeq pat s = false → repAux pat rep fuel pre s = s := by
  induction fuel with
  | zero =>
    intro pre s _
    cases s with
    | nil => rfl
    | cons c rest => rfl
  | succ n ih =>
    intro pre s h
    cases s with
    | nil => rfl
    | cons c rest =>
      have h2 : isPre pat (c :: rest) = false ∧ containsSeq pat rest = false := by
        simpa [containsSeq, Bool.or_eq_false_iff] using h
      simp [repAux, h2.1, ih (pre ++ [c]) rest h2.2]

/-- Global replacement is the identity when the pattern does not occur. -/
lemma replaceAll_no_occ (pat rep s : List Char) (h : containsSeq pat s = false) :
    replaceAll pat rep s = s :=
  repAux_no_occ pat rep s.length [] s h

/-- For a non-empty pattern and a dollar-free replacement, the scanner's
output depends neither on the prefix context nor on the fuel, once the
fuel covers the input length. -/
lemma repAux_congr (pat rep : List Char) (hpat : pat ≠ []) (hrep : '$' ∉ rep) :
    ∀ (fuel fuel' : Nat) (pre pre' s : List Char),
      s.length ≤ fuel → s.length ≤ fuel' →
      repAux pat rep fuel pre s = repAux pat rep fuel' pre' s := by
  intro fuel
  induction fuel with
  | zero =>
    intro fuel' pre pre' s hs _
    have : s = [] := List.length_eq_zero.mp (Nat.le_zero.mp hs)
    subst this
    cases fuel' <;> rfl
  | succ n ih =>
    intro fuel' pre pre' s hs hs'
    cases s with
    | nil => cases fuel' <;> rfl
    | cons c rest =>
      have hpos : 0 < fuel' := lt_of_lt_of_le (Nat.succ_pos _) hs'
      obtain ⟨m, rfl⟩ : ∃ m, fuel' = m + 1 :=
        ⟨fuel' - 1, (Nat.succ_pred_eq_of_pos hpos).symm⟩
      have hplen : 1 ≤ pat.length := by
        cases pat with
        | nil => exact absurd rfl hpat
        | cons p ps => simp
      by_cases hg : isPre pat (c :: rest) = true
      · have hdlen : (List.drop pat.length (c :: rest)).length ≤ rest.length := by
          rw [List.length_drop]
          simp only [List.length_cons]
          omega
        have hn : (List.drop pat.length (c :: rest)).length ≤ n :=
          le_trans hdlen (Nat.succ_le_succ_iff.mp hs)
        have hm : (List.drop pat.length (c :: rest)).length ≤ m :=
          le_trans hdlen (Nat.succ_le_succ_iff.mp hs')
        simp [repAux, hg, getSubstitution_no_dollar _ _ _ rep hrep,
          ih m (pre ++ pat) (pre' ++ pat) _ hn hm]
      · have hn : rest.length ≤ n := Nat.succ_le_succ_iff.mp hs
        have hm : rest.length ≤ m := Nat.succ_le_succ_iff.mp hs'
        simp [repAux, hg, ih m (pre ++ [c]) (pre' ++ [c]) rest hn hm]

/-- Walking the scanner through a block `a` in which no match starts. -/
lemma repAux_walk (pat rep : List Char) :
    ∀ (a : List Char) (s pre : List Char) (fuel : Nat),
      (∀ a1 a2, a = a1 ++ a2 → a2 ≠ [] → isPre pat (a2 ++ s) = false) →
      repAux pat rep (a.length + fuel) pre (a ++ s) =
        a ++ repAux pat rep fuel (pre ++ a) s := by
  intro a
  induction a with
  | nil =>
    intro s pre fuel _
    simp
  | cons c a' ih =>
    intro s pre fuel h
    have hg : isPre pat (c :: (a' ++ s)) = false := by
      simpa using h [] (c :: a') rfl (by simp)
    have h' : ∀ a1 a2, a' = a1 ++ a2 → a2 ≠ [] → isPre pat (a2 ++ s) = false := by
      intro a1 a2 hsplit hne
      exact h (c :: a1) a2 (by simp [hsplit]) hne
    have hlen : (c :: a').length + fuel = (a'.length + fuel) + 1 := by
      simp only [List.length_cons]
      omega
    rw [hlen]
    show repAux pat rep ((a'.length + fuel) + 1) pre (c :: (a' ++ s)) = _
    rw [repAux, if_neg (by simp [hg])]
    rw [ih s (pre ++ [c]) fuel h']
    simp [List.append_assoc]

/-- The scanner at a designated match: consume the pattern, emit the
(dollar-free) replacement, continue after it. -/
lemma repAux_match (pat rep : List Char) (hpat : pat ≠ []) (hrep : '$' ∉ rep)
    (rest pre : List Char) (fuel : Nat) :
    repAux pat rep (fuel + 1) pre (pat ++ rest) =
      rep ++ repAux pat rep fuel (pre ++ pat) rest := by
  cases pat with
  | nil => exact absurd rfl hpat
  | cons p ps =>
    have hg : isPre (p :: ps) (p :: (ps ++ rest)) = true := isPre_append_self (p :: ps) rest
    have hdrop : List.drop (p :: ps).length (p :: (ps ++ rest)) = rest :=
      List.drop_left (p :: ps) rest
    show repAux (p :: ps) rep (fuel + 1) pre (p :: (ps ++ rest)) = _
    rw [repAux]
    simp [hg, hdrop, getSubstitution_no_dollar _ _ _ rep hrep]

/-- Global replacement over a gap decomposition: every designated
occurrence of the pattern is replaced by the (dollar-free) replacement
value, and the gaps pass through verbatim. -/
lemma replaceAll_gaps (pat rep : List Char) (hpat : pat ≠ []) (hrep : '$' ∉ rep) :
    ∀ gaps : List (List Char), okGaps pat gaps = true →
      replaceAll pat rep (sepBy pat gaps) = sepBy rep gaps := by
  intro gaps
  induction gaps with
  | nil => intro _; rfl
  | cons g tail ih =>
    intro hok
    cases tail with
    | nil =>
      have hno : containsSeq pat g = false := by
        simpa [okGaps] using hok
      exact replaceAll_no_occ pat rep g hno
    | cons g2 gs =>
      have hok2 : okGaps pat (g2 :: gs) = true := by
        have := hok
        rw [okGaps, Bool.and_eq_true] at this
        exact this.2
      have hrange : ∀ i < g.length,
          isPre pat (List.drop i (g ++ pat ++ sepBy pat (g2 :: gs))) = false := by
        have := hok
        rw [okGaps, Bool.and_eq_true, List.all_eq_true] at this
        intro i hi
        have hmem := this.1 i (List.mem_range.mpr hi)
        simpa using hmem
      have hwalk : ∀ a1 a2, g = a1 ++ a2 → a2 ≠ [] →
          isPre pat (a2 ++ (pat ++ sepBy pat (g2 :: gs))) = false := by
        intro a1 a2 hsplit hne
        have hi : a1.length < g.length := by
          rw [hsplit, List.length_append]
          have : 0 < a2.length := List.length_pos.mpr hne
          omega
        have hdrop : List.drop a1.length (g ++ pat ++ sepBy pat (g2 :: gs)) =
            a2 ++ (pat ++ sepBy pat (g2 :: gs)) := by
          rw [hsplit, List.append_assoc, List.append_assoc, List.drop_left]
        have := hrange a1.length hi
        rw [hdrop] at this
        exact this
      obtain ⟨k, hk⟩ : ∃ k, pat.length = k + 1 := by
        cases pat with
        | nil => exact absurd rfl hpat
        | cons p ps => exact ⟨ps.length, rfl⟩
      have hassoc : sepBy pat (g :: g2 :: gs) = g ++ (pat ++ sepBy pat (g2 :: gs)) := by
        rw [sepBy, List.append_assoc]
      have hlen : (sepBy pat (g :: g2 :: gs)).length =
          g.length + (k + (sepBy pat (g2 :: gs)).length + 1) := by
        rw [hassoc]
        simp [List.length_append, hk]
        omega
      rw [replaceAll, hlen, hassoc,
        repAux_walk pat rep g (pat ++ sepBy pat (g2 :: gs)) [] _ hwalk,
        repAux_match pat rep hpat hrep _ _ _,
        repAux_congr pat rep hpat hrep _ (sepBy pat (g2 :: gs)).length _ [] _
          (by omega) (le_refl _)]
      rw [show repAux pat rep (sepBy pat (g2 :: gs)).length [] (sepBy pat (g2 :: gs)) =
          replaceAll pat rep (sepBy pat (g2 :: gs)) from rfl]
      rw [ih hok2, sepBy, List.append_assoc]

/-- Once the token is cancelled, close and cancel events no longer
change the supervisor state. -/
lemma foldl_stepSup_cancelled :
    ∀ (t : List SupEvent) (s : SupState), s.cancelRequested = true →
      (∀ e ∈ t, isCloseOrCancel e = true) → List.foldl stepSup s t = s := by
  intro t
  induction t with
  | nil => intro s _ _; rfl
  | cons e rest ih =>
    intro s hc hall
    have he : isCloseOrCancel e = true := hall e (by simp)
    have hrest : ∀ x ∈ rest, isCloseOrCancel x = true := by
      intro x hx; exact hall x (by simp [hx])
    have hstep : stepSup s e = s := by
      cases e with
      | cancel => simp [stepSup, hc]
      | close c => simp [stepSup, hc]
      | err => simp [isCloseOrCancel] at he
    rw [List.foldl_cons, hstep]
    exact ih s hc hrest

/-- Skipping a block of non-truthy environment keys. -/
lemma firstTruthy_skip (env : String → Option String) :
    ∀ (pre rest : List String), (∀ k ∈ pre, truthyOpt (env k) = false) →
      firstTruthy env (pre ++ rest) = firstTruthy env rest := by
  intro pre
  induction pre with
  | nil => intro rest _; rfl
  | cons k pre' ih =>
    intro rest h
    have hk : truthyOpt (env k) = false := h k (by simp)
    have h' : ∀ k' ∈ pre', truthyOpt (env k') = false := by
      intro k' hk'; exact h k' (by simp [hk'])
    simp [firstTruthy, hk, ih rest h']

/-- The fallback loop finds nothing exactly when every listed variable is
absent or empty. -/
lemma firstTruthy_none_iff (env : String → Option String) :
    ∀ l : List String,
      (firstTruthy env l = none ↔ ∀ k ∈ l, truthyOpt (env k) = false) := by
  intro l
  induction l with
  | nil => simp [firstTruthy]
  | cons k rest ih =>
    cases hc : truthyOpt (env k) with
    | false => simp [firstTruthy, hc, ih]
    | true =>
      cases henv : env k with
      | none => rw [henv] at hc; simp [truthyOpt] at hc
      | some v =>
        constructor
        · intro habs
          rw [firstTruthy, hc, if_pos rfl, henv] at habs
          exact absurd habs (by simp)
        · intro hall
          have := hall k (by simp)
          rw [hc] at this
          exact absurd this (by simp)

/-- The fallback loop never selects the empty string. -/
lemma firstTruthy_ne_empty (env : String → Option String) :
    ∀ (l : List String) (v : String), firstTruthy env l = some v → v ≠ "" := by
  intro l
  induction l with
  | nil => intro v h; simp [firstTruthy] at h
  | cons k rest ih =>
    intro v h
    by_cases hc : truthyOpt (env k) = true
    · rw [firstTruthy, if_pos hc] at h
      rw [h] at hc
      simpa [truthyOpt] using hc
    · rw [firstTruthy, if_neg hc] at h
      exact ih v h

/-- `normStack` distributes over appended input. -/
lemma normStack_append (a b : List String) :
    ∀ st, normStack st (a ++ b) = normStack (normStack st a) b := by
  induction a with
  | nil => intro st; rfl
  | cons s rest ih =>
    intro st
    by_cases h1 : s = ".."
    · simp [normStack, h1, ih]
    · by_cases h2 : s = "."
      · simp [normStack, h1, h2, ih]
      · simp [normStack, h1, h2, ih]

/-- Without `..` segments, normalisation only appends (dropping `.`). -/
lemma normStack_no_dotdot (l : List String) (h : ".." ∉ l) :
    ∀ st, normStack st l = st ++ l.filter (fun s => s ≠ ".") := by
  induction l with
  | nil => intro st; simp [normStack]
  | cons s rest ih =>
    intro st
    have hs : s ≠ ".." := by intro hc; exact h (by simp [hc])
    have hrest : ".." ∉ rest := by intro hc; exact h (by simp [hc])
    by_cases h2 : s = "."
    · simp [normStack, hs, h2, ih hrest]
    · simp [normStack, hs, h2, ih hrest, List.append_assoc]

/-! ## Claim theorems -/

/-- C1: when the cancellation signal fires while the child process is
alive, the supervisor kills the child and reports `Cancelled` exactly
once; no `Success` or `Failure` is reported afterwards, whatever exit
codes the subsequent `close` events carry (the `close` handler returns
early once the token is cancelled). -/
theorem cancellation_single_cancelled_outcome (post : List SupEvent)
    (h : ∀ e ∈ post, isCloseOrCancel e = true) :
    (runSup (SupEvent.cancel :: post)).reports = [SupReport.cancelled] ∧
    (runSup (SupEvent.cancel :: post)).killed = true := by
  have h1 : stepSup initSup SupEvent.cancel =
      { cancelRequested := true, killed := true, resolved := true,
        reports := [SupReport.cancelled] } := rfl
  have h2 : runSup (SupEvent.cancel :: post) =
      { cancelRequested := true, killed := true, resolved := true,
        reports := [SupReport.cancelled] } := by
    show List.foldl stepSup initSup (SupEvent.cancel :: post) = _
    rw [List.foldl_cons, h1]
    exact foldl_stepSup_cancelled post _ rfl h
  rw [h2]
  exact ⟨rfl, rfl⟩

/-- Witness for C1: a cancellation followed by the child's exit with
code 1 yields exactly the `Cancelled` report and a killed child. -/
theorem cancellation_single_cancelled_outcome_witness :
    (runSup [SupEvent.cancel, SupEvent.close (some 1)]).reports = [SupReport.cancelled] ∧
    (runSup [SupEvent.cancel, SupEvent.close (some 1)]).killed = true :=
  cancellation_single_cancelled_outcome [SupEvent.close (some 1)] (by decide)

/-- C2: evaluation at the failing input.  When the spawn fails, Node
emits `error` and then always emits `close` (documented behaviour of
`child_process`); the `error` handler sets no terminal flag, so the run
reports the launch error and then an additional exit-code failure — two
terminal reports, contradicting the claimed single terminal
transition. -/
theorem launch_error_then_close_double_report :
    (runSup [SupEvent.err, SupEvent.close none]).reports =
      [SupReport.launchError, SupReport.exitFailure none] ∧
    (runSup [SupEvent.err, SupEvent.close none]).reports.length = 2 := by
  exact ⟨rfl, rfl⟩

/-- C3 counterexample: substitution is a chain of global replaces in a
fixed order, so a `\x7brelativeFilePath\x7d` value containing the literal text
`\x7bfileName\x7d` does not remain verbatim — the later `\x7bfileName\x7d` pass
re-expands it. -/
theorem token_value_reexpanded_counterexample :
    resolvePath tokRelStr
      { sourceRelPath := "\x7bfileName\x7d", fileName := "calc.py", sourceDir := "app" } =
      "calc.py" ∧
    resolvePath tokRelStr
      { sourceRelPath := "\x7bfileName\x7d", fileName := "calc.py", sourceDir := "app" } ≠
      "\x7bfileName\x7d" := by
  exact ⟨rfl, by decide⟩

/-- C3 (amended): resolution is sequential global substitution.  For
every template — written as its gap decomposition around the
occurrences of `\x7brelativeFilePath\x7d` — each occurrence is replaced,
left to right and without rescanning the inserted text, by the
`sourceRelPath` value, provided no stray match starts inside a gap;
the value appears verbatim exactly when it contains no dollar character
(else ECMAScript replacement patterns are interpreted) and the
substituted result contains no `\x7bfileName\x7d` or `\x7bsourceDir\x7d`
occurrence (else a later pass re-expands it). -/
theorem token_replacement_global_sequential (gaps : List (List Char))
    (rel fileNameV dirV : String)
    (h0 : okGaps tokRel gaps = true)
    (h1 : '$' ∉ rel.data)
    (h2 : containsSeq tokName (sepBy rel.data gaps) = false)
    (h3 : containsSeq tokDir (sepBy rel.data gaps) = false) :
    resolvePath (String.mk (sepBy tokRel gaps))
      { sourceRelPath := rel, fileName := fileNameV, sourceDir := dirV } =
      String.mk (sepBy rel.data gaps) := by
  show String.mk (replaceAll tokDir dirV.data
      (replaceAll tokName fileNameV.data
        (replaceAll tokRel rel.data (sepBy tokRel gaps)))) = _
  rw [replaceAll_gaps tokRel rel.data (by decide) h1 gaps h0,
    replaceAll_no_occ tokName fileNameV.data _ h2,
    replaceAll_no_occ tokDir dirV.data _ h3]

/-- Witness for the amended C3: the two-occurrence template
`\x7brelativeFilePath\x7d-\x7brelativeFilePath\x7d` resolves both occurrences
to `app/calc.py`, verbatim. -/
theorem token_replacement_global_sequential_witness :
    okGaps tokRel [[], "-".data, []] = true ∧
    ('$' ∉ "app/calc.py".data) ∧
    containsSeq tokName (sepBy "app/calc.py".data [[], "-".data, []]) = false ∧
    containsSeq tokDir (sepBy "app/calc.py".data [[], "-".data, []]) = false ∧
    resolvePath (String.mk (sepBy tokRel [[], "-".data, []]))
      { sourceRelPath := "app/calc.py", fileName := "calc.py", sourceDir := "app" } =
      String.mk (sepBy "app/calc.py".data [[], "-".data, []]) :=
  ⟨by decide, by decide, by decide, by decide,
    token_replacement_global_sequential [[], "-".data, []] "app/calc.py" "calc.py" "app"
      (by decide) (by decide) (by decide) (by decide)⟩

/-- C4 counterexample: with workspace root `/ws` and test-path template
`../x/test_\x7bfileName\x7d`, the directory that the ensure-directory step
creates is `/x`, which is outside the workspace root — `path.join`
resolves the `..` segment above the root. -/
theorem test_dir_escapes_workspace_counterexample :
    testDirSegs "/ws"
      (resolvePath "../x/test_\x7bfileName\x7d"
        { sourceRelPath := "app/calc.py", fileName := "calc.py", sourceDir := "app" }) =
      ["x"] ∧
    isPre (segsOf "/ws")
      (testDirSegs "/ws"
        (resolvePath "../x/test_\x7bfileName\x7d"
          { sourceRelPath := "app/calc.py", fileName := "calc.py", sourceDir := "app" })) =
      false := by
  exact ⟨rfl, rfl⟩

/-- C4 (amended): after the ensure-test-directory step, the created
directory lies inside (or equals) the workspace root provided the
resolved test path's directory part contains no `..` segment — in
particular absolute-looking paths are joined as if relative and stay
inside; a `..` segment can escape the root. -/
theorem test_dir_inside_workspace_of_no_dotdot (root tpl : String) (ctx : PathCtx)
    (h1 : "." ∉ segsOf root) (h2 : ".." ∉ segsOf root)
    (h3 : ".." ∉ segsOf (dirnameS (resolvePath tpl ctx))) :
    isPre (segsOf root) (testDirSegs root (resolvePath tpl ctx)) = true := by
  have hfilt : List.filter (fun s => s ≠ ".") (segsOf root) = segsOf root := by
    apply List.filter_eq_self.mpr
    intro a ha
    have hne : a ≠ "." := fun hc => h1 (hc ▸ ha)
    simp [hne]
  rw [testDirSegs, normStack_append, normStack_no_dotdot _ h2 [], List.nil_append, hfilt,
    normStack_no_dotdot _ h3 (segsOf root)]
  exact isPre_append_self _ _

/-- Witness for the amended C4: the default test-path template resolves
to `tests/test_calc.py`, whose directory `tests` keeps the created
directory under `/ws`. -/
theorem test_dir_inside_workspace_of_no_dotdot_witness :
    ("." ∉ segsOf "/ws") ∧ (".." ∉ segsOf "/ws") ∧
    (".." ∉ segsOf (dirnameS (resolvePath defaultTestPathTpl
      { sourceRelPath := "app/calc.py", fileName := "calc.py", sourceDir := "app" }))) ∧
    isPre (segsOf "/ws")
      (testDirSegs "/ws" (resolvePath defaultTestPathTpl
        { sourceRelPath := "app/calc.py", fileName := "calc.py", sourceDir := "app" })) =
      true :=
  ⟨by decide, by decide, by decide,
    test_dir_inside_workspace_of_no_dotdot "/ws" defaultTestPathTpl
      { sourceRelPath := "app/calc.py", fileName := "calc.py", sourceDir := "app" }
      (by decide) (by decide) (by decide)⟩

/-- C5: the API credential is the explicit setting when truthy; else the
first non-empty variable of the fixed environment chain wins (so with
`OPENAI_API_KEY=a` set — even alongside `DEEPSEEK_API_KEY=b` — the
result is `a`); and the run aborts with the configuration error exactly
when every source is absent or empty. -/
theorem apiKey_resolution_order (setting : Option String) (env : String → Option String) :
    (truthyOpt setting = true → resolveApiKey setting env = setting) ∧
    (truthyOpt setting = false →
      ∀ (pre : List String) (k : String) (post : List String) (v : String),
        possibleEnvKeys = pre ++ k :: post → env k = some v → v ≠ "" →
        (∀ k' ∈ pre, truthyOpt (env k') = false) →
        resolveApiKey setting env = some v) ∧
    (truthyOpt setting = false → env "OPENAI_API_KEY" = some "a" →
      env "DEEPSEEK_API_KEY" = some "b" → resolveApiKey setting env = some "a") ∧
    (resolveApiKey setting env = none ↔
      (truthyOpt setting = false ∧ ∀ k ∈ possibleEnvKeys, truthyOpt (env k) = false)) := by
  refine ⟨?_, ?_, ?_, ?_⟩
  · intro h
    simp [resolveApiKey, h]
  · intro hs pre k post v hkeys henv hv hpre
    rw [resolveApiKey, if_neg (by simp [hs]), hkeys, firstTruthy_skip env pre (k :: post) hpre]
    simp [firstTruthy, henv, truthyOpt, hv]
  · intro hs ho _
    rw [resolveApiKey, if_neg (by simp [hs])]
    simp [possibleEnvKeys, firstTruthy, ho, truthyOpt]
  · constructor
    · intro h
      by_cases ht : truthyOpt setting = true
      · rw [resolveApiKey, if_pos ht] at h
        rw [h] at ht
        simp [truthyOpt] at ht
      · have hs : truthyOpt setting = false := by
          cases hb : truthyOpt setting
          · rfl
          · exact absurd hb ht
        rw [resolveApiKey, if_neg ht] at h
        exact ⟨hs, (firstTruthy_none_iff env possibleEnvKeys).mp h⟩
    · rintro ⟨hs, hall⟩
      rw [resolveApiKey, if_neg (by simp [hs])]
      exact (firstTruthy_none_iff env possibleEnvKeys).mpr hall

/-- Witness for C5: with no explicit setting, `OPENAI_API_KEY=a` and
`DEEPSEEK_API_KEY=b`, the resolved credential is `a`. -/
theorem apiKey_resolution_order_witness :
    resolveApiKey none
      (fun k => if k = "OPENAI_API_KEY" then some "a"
                else if k = "DEEPSEEK_API_KEY" then some "b" else none) = some "a" :=
  (apiKey_resolution_order none
      (fun k => if k = "OPENAI_API_KEY" then some "a"
                else if k = "DEEPSEEK_API_KEY" then some "b" else none)).2.2.1
    (by decide) (by decide) (by decide)

/-- C6: with workspace root `/ws`, active file `/ws/app/calc.py` and the
default templates, resolution yields source path `app/calc.py`, test
path `tests/test_calc.py` and the documented pytest command. -/
theorem default_templates_scenario :
    mkPathCtx "/ws" "/ws/app/calc.py" =
      { sourceRelPath := "app/calc.py", fileName := "calc.py", sourceDir := "app" } ∧
    resolvePath defaultSourcePathTpl (mkPathCtx "/ws" "/ws/app/calc.py") = "app/calc.py" ∧
    resolvePath defaultTestPathTpl (mkPathCtx "/ws" "/ws/app/calc.py") = "tests/test_calc.py" ∧
    resolveCmd defaultTestCommandTpl
      (resolvePath defaultTestPathTpl (mkPathCtx "/ws" "/ws/app/calc.py"))
      (mkPathCtx "/ws" "/ws/app/calc.py").sourceDir =
      "pytest tests/test_calc.py --cov=app --cov-branch --cov-report=xml --cov-report=html" := by
  exact ⟨rfl, rfl, rfl, rfl⟩

/-- C7: when the platform-specific executable already exists at its
deterministic path under the venv root, the bootstrap returns success
immediately and issues no environment-creation or install command. -/
theorem ensure_executable_fast_path (isWindows : Bool) (extensionPath : String)
    (fileExists : String → Bool) (execOk : String → Bool)
    (h : fileExists (coverAgentPath isWindows extensionPath) = true) :
    setupPythonEnvironment isWindows extensionPath fileExists execOk =
      { ok := true, cmds := [] } := by
  simp [setupPythonEnvironment, h]

/-- Witness for C7: with the executable present, nothing is executed
even under an exec oracle that would fail every command. -/
theorem ensure_executable_fast_path_witness :
    ((fun _ : String => true) (coverAgentPath false "/ext") = true) ∧
    setupPythonEnvironment false "/ext" (fun _ => true) (fun _ => false) =
      { ok := true, cmds := [] } :=
  ⟨rfl, ensure_executable_fast_path false "/ext" (fun _ => true) (fun _ => false) rfl⟩

/-- C8 counterexample: the template `\x7b\x7bfileName\x7d` with `fileName`
value `fileName\x7d` satisfies the claim's precondition (the only token
occurring in the template is `\x7bfileName\x7d`, and its value contains no
token string), yet resolving once gives `\x7bfileName\x7d` and resolving
twice gives `fileName\x7d` — resolution is not idempotent there. -/
theorem resolve_not_idempotent_counterexample :
    ((containsSeq tokRel ("\x7b\x7bfileName\x7d").data = true →
        hasAnyTok "app/calc.py" = false) ∧
     (containsSeq tokName ("\x7b\x7bfileName\x7d").data = true →
        hasAnyTok "fileName\x7d" = false) ∧
     (containsSeq tokDir ("\x7b\x7bfileName\x7d").data = true →
        hasAnyTok "app" = false)) ∧
    resolvePath "\x7b\x7bfileName\x7d"
      { sourceRelPath := "app/calc.py", fileName := "fileName\x7d", sourceDir := "app" } =
      "\x7bfileName\x7d" ∧
    resolvePath
      (resolvePath "\x7b\x7bfileName\x7d"
        { sourceRelPath := "app/calc.py", fileName := "fileName\x7d", sourceDir := "app" })
      { sourceRelPath := "app/calc.py", fileName := "fileName\x7d", sourceDir := "app" } ≠
      resolvePath "\x7b\x7bfileName\x7d"
        { sourceRelPath := "app/calc.py", fileName := "fileName\x7d", sourceDir := "app" } := by
  refine ⟨⟨?_, ?_, ?_⟩, ?_, ?_⟩ <;> decide

/-- C8 (amended): resolution is idempotent whenever the once-resolved
string contains none of the recognized path tokens; the original
precondition (no substituted value contains a token string) is not
sufficient, because a value can splice with surrounding template text
into a new token occurrence. -/
theorem resolve_idempotent_of_result_token_free (tpl : String) (ctx : PathCtx)
    (h1 : containsSeq tokRel (resolvePath tpl ctx).data = false)
    (h2 : containsSeq tokName (resolvePath tpl ctx).data = false)
    (h3 : containsSeq tokDir (resolvePath tpl ctx).data = false) :
    resolvePath (resolvePath tpl ctx) ctx = resolvePath tpl ctx := by
  show String.mk (replaceAll tokDir ctx.sourceDir.data
      (replaceAll tokName ctx.fileName.data
        (replaceAll tokRel ctx.sourceRelPath.data (resolvePath tpl ctx).data))) =
    resolvePath tpl ctx
  rw [replaceAll_no_occ _ _ _ h1, replaceAll_no_occ _ _ _ h2, replaceAll_no_occ _ _ _ h3]

/-- Witness for the amended C8: the default test-path template resolves
to a token-free string, on which resolution is idempotent. -/
theorem resolve_idempotent_of_result_token_free_witness :
    (containsSeq tokRel (resolvePath defaultTestPathTpl
        { sourceRelPath := "app/calc.py", fileName := "calc.py", sourceDir := "app" }).data =
        false ∧
      containsSeq tokName (resolvePath defaultTestPathTpl
        { sourceRelPath := "app/calc.py", fileName := "calc.py", sourceDir := "app" }).data =
        false ∧
      containsSeq tokDir (resolvePath defaultTestPathTpl
        { sourceRelPath := "app/calc.py", fileName := "calc.py", sourceDir := "app" }).data =
        false) ∧
    resolvePath
      (resolvePath defaultTestPathTpl
        { sourceRelPath := "app/calc.py", fileName := "calc.py", sourceDir := "app" })
      { sourceRelPath := "app/calc.py", fileName := "calc.py", sourceDir := "app" } =
      resolvePath defaultTestPathTpl
        { sourceRelPath := "app/calc.py", fileName := "calc.py", sourceDir := "app" } :=
  ⟨⟨by decide, by decide, by decide⟩,
    resolve_idempotent_of_result_token_free defaultTestPathTpl
      { sourceRelPath := "app/calc.py", fileName := "calc.py", sourceDir := "app" }
      (by decide) (by decide) (by decide)⟩

/-- C9: evaluation at the failing interleaving.  Two triggers whose
existence checks both run before either install step (possible because
each invocation suspends at its `await` boundaries and nothing guards
the bootstrap) both issue the venv-creation command into the same
directory while neither has completed — the bootstrap is not
single-flight. -/
theorem overlapping_triggers_double_install :
    (bootRun [false, true, false, true]).cmds1 = [venvCmdStr false] ∧
    (bootRun [false, true, false, true]).cmds2 = [venvCmdStr false] ∧
    (bootRun [false, true, false, true]).exeExists = false := by
  exact ⟨rfl, rfl, rfl⟩

/-- C10: an explicitly configured empty-string `apiKey` behaves exactly
like an absent setting (the lookup falls through to the environment
chain), an empty environment variable is skipped rather than selected,
and the resolved credential is never the empty string. -/
theorem empty_credential_falls_through :
    (∀ env : String → Option String,
      resolveApiKey (some "") env = resolveApiKey none env) ∧
    (∀ (setting : Option String) (env : String → Option String) (v : String),
      resolveApiKey setting env = some v → v ≠ "") ∧
    (∀ env : String → Option String, env "OPENAI_API_KEY" = some "" →
      env "FIREWORKS_AI_API_KEY" = some "b" →
      resolveApiKey (some "") env = some "b") := by
  refine ⟨?_, ?_, ?_⟩
  · intro env
    rfl
  · intro setting env v h
    cases setting with
    | none =>
      rw [resolveApiKey, if_neg (by simp [truthyOpt])] at h
      exact firstTruthy_ne_empty env possibleEnvKeys v h
    | some s =>
      by_cases hs : s = ""
      · subst hs
        rw [resolveApiKey, if_neg (by simp [truthyOpt])] at h
        exact firstTruthy_ne_empty env possibleEnvKeys v h
      · rw [resolveApiKey, if_pos (by simp [truthyOpt, hs])] at h
        have hv : s = v := Option.some.inj h
        subst hv
        exact hs
  · intro env h1 h2
    rw [resolveApiKey, if_neg (by simp [truthyOpt])]
    simp [possibleEnvKeys, firstTruthy, h1, h2, truthyOpt]

/-- Witness for C10: `apiKey` set to the empty string and
`OPENAI_API_KEY=""` are both skipped; `FIREWORKS_AI_API_KEY=b` is
selected. -/
theorem empty_credential_falls_through_witness :
    resolveApiKey (some "")
      (fun k => if k = "OPENAI_API_KEY" then some ""
                else if k = "FIREWORKS_AI_API_KEY" then some "b" else none) = some "b" :=
  empty_credential_falls_through.2.2
    (fun k => if k = "OPENAI_API_KEY" then some ""
              else if k = "FIREWORKS_AI_API_KEY" then some "b" else none)
    (by decide) (by decide)

end QodoPlus
